import Mathlib

/-!
Verification development for the `mini.js` PDF-extraction service
(single HTTP endpoint: render PDF pages, query a vision model per batch of
pages, merge the per-batch JSON answers into one record).

The shallow embedding below translates, from the source:
  * the host runtime's `JSON.parse` (modelled as a recursive-descent JSON
    reader over the characters of the input; JS float rounding of numeric
    literals is not modelled — numbers are kept as exact rationals, and no
    verified property depends on a numeric value produced by the reader);
  * the JSON-recovery fallback of the `/extract` handler (direct parse,
    then first-brace/last-brace substring extraction);
  * the zod schema `ExtractedDataSchema` (all fields `.optional()`, i.e.
    a field may be absent, but `null` is not accepted by `z.string()`;
    unknown keys are stripped, zod's default object mode).  zod reports
    all issues of a parse in one `ZodError`; the embedding short-circuits
    at the first issue.  Acceptance and rejection coincide; only the
    error text differs, and no verified property depends on the text of a
    library error message;
  * the batching loop (`BATCH_SIZE = 6`, contiguous slices);
  * the sequential merge loop (first non-null wins for the seven scalar
    fields, concatenation of `lineItems`, running sum of batch sizes in
    `meta.pagesProcessed`), and the final strict validation plus the
    success / error HTTP responses.

The external collaborators (page renderer, model transport) enter as
parameters: a request is modelled by the list of rendered pages and a
function giving the model's raw answer text for each batch index.
-/

/-! JSON values -/

/-- A JSON value, as produced by the host runtime's `JSON.parse`.
Numbers are kept as exact rationals (see the header note). -/
inductive Json where
  | null : Json
  | bool (b : Bool) : Json
  | num (q : ℚ) : Json
  | str (s : String) : Json
  | arr (elems : List Json) : Json
  | obj (fields : List (String × Json)) : Json

/-- The characters `{`, `}`, `"`, `\` used by the reader, by code point. -/
def lbraceC : Char := Char.ofNat 123

def rbraceC : Char := Char.ofNat 125

def quoteC : Char := Char.ofNat 34

def backslashC : Char := Char.ofNat 92

/-- Skip JSON whitespace (space, tab, line feed, carriage return). -/
def skipWs : List Char → List Char
  | [] => []
  | c :: cs =>
    if c = ' ' ∨ c = Char.ofNat 9 ∨ c = Char.ofNat 10 ∨ c = Char.ofNat 13 then skipWs cs
    else c :: cs

/-- Longest prefix of decimal digits, and the rest. -/
def takeDigits : List Char → List Char × List Char
  | [] => ([], [])
  | c :: cs =>
    if c.isDigit then
      let r := takeDigits cs
      (c :: r.1, r.2)
    else ([], c :: cs)

/-- Value of a list of decimal digits. -/
def digitsToNat (ds : List Char) : Nat :=
  ds.foldl (fun acc c => acc * 10 + (c.toNat - 48)) 0

/-- Value of a hexadecimal digit, if any. -/
def hexVal (c : Char) : Option Nat :=
  let n := c.toNat
  if 48 ≤ n ∧ n ≤ 57 then some (n - 48)
  else if 97 ≤ n ∧ n ≤ 102 then some (n - 87)
  else if 65 ≤ n ∧ n ≤ 70 then some (n - 55)
  else none

/-- Body of a JSON string literal (the opening quote already consumed):
the decoded characters and the rest of the input. -/
def parseStringChars : List Char → Except String (List Char × List Char)
  | [] => .error "Unterminated string in JSON"
  | c :: cs =>
    if c = quoteC then .ok ([], cs)
    else if c = backslashC then
      match cs with
      | [] => .error "Unterminated string in JSON"
      | e :: cs2 =>
        if e = quoteC ∨ e = backslashC ∨ e = '/' then
          match parseStringChars cs2 with
          | .ok (tail, rest) => .ok (e :: tail, rest)
          | .error err => .error err
        else if e = 'b' ∨ e = 'f' ∨ e = 'n' ∨ e = 'r' ∨ e = 't' then
          let ec : Char :=
            if e = 'b' then Char.ofNat 8
            else if e = 'f' then Char.ofNat 12
            else if e = 'n' then Char.ofNat 10
            else if e = 'r' then Char.ofNat 13
            else Char.ofNat 9
          match parseStringChars cs2 with
          | .ok (tail, rest) => .ok (ec :: tail, rest)
          | .error err => .error err
        else if e = 'u' then
          match cs2 with
          | h1 :: h2 :: h3 :: h4 :: cs3 =>
            match hexVal h1, hexVal h2, hexVal h3, hexVal h4 with
            | some a, some b, some c2, some d =>
              match parseStringChars cs3 with
              | .ok (tail, rest) =>
                .ok (Char.ofNat (((a * 16 + b) * 16 + c2) * 16 + d) :: tail, rest)
              | .error err => .error err
            | _, _, _, _ => .error "Invalid unicode escape in JSON"
          | _ => .error "Invalid unicode escape in JSON"
        else .error "Invalid escape in JSON"
    else if c.toNat < 32 then .error "Invalid control character in JSON string"
    else
      match parseStringChars cs with
      | .ok (tail, rest) => .ok (c :: tail, rest)
      | .error err => .error err

/-- Fractional part of a JSON number (digits after the dot), if present. -/
def parseFracPart : List Char → Except String (List Char × List Char)
  | [] => .ok ([], [])
  | c :: rest =>
    if c = '.' then
      let r := takeDigits rest
      if r.1.isEmpty then .error "Invalid number in JSON" else .ok (r.1, r.2)
    else .ok ([], c :: rest)

/-- Exponent part of a JSON number: sign, digits, rest. -/
def parseExpPart : List Char → Except String (Bool × List Char × List Char)
  | [] => .ok (false, [], [])
  | c :: rest =>
    if c = 'e' ∨ c = 'E' then
      let signRes : Bool × List Char :=
        match rest with
        | [] => (false, rest)
        | d :: rest2 =>
          if d = '-' then (true, rest2)
          else if d = '+' then (false, rest2)
          else (false, d :: rest2)
      let r := takeDigits signRes.2
      if r.1.isEmpty then .error "Invalid number in JSON"
      else .ok (signRes.1, r.1, r.2)
    else .ok (false, [], c :: rest)

/-- A JSON number literal starting at the head of the input. -/
def parseNumber (cs : List Char) : Except String (Json × List Char) :=
  let signRes : Bool × List Char :=
    match cs with
    | [] => (false, [])
    | c :: rest => if c = '-' then (true, rest) else (false, c :: rest)
  let intRes := takeDigits signRes.2
  if intRes.1.isEmpty then .error "Invalid number in JSON"
  else if 1 < intRes.1.length ∧ intRes.1.head? = some '0' then .error "Invalid number in JSON"
  else
    match parseFracPart intRes.2 with
    | .error e => .error e
    | .ok (fracDs, cs3) =>
      match parseExpPart cs3 with
      | .error e => .error e
      | .ok (expNeg, expDs, cs4) =>
        let base : ℚ := (digitsToNat intRes.1 : ℚ) + (digitsToNat fracDs : ℚ) / ((10 : ℚ) ^ fracDs.length)
        let expNat := digitsToNat expDs
        let scaled : ℚ := if expNeg then base / ((10 : ℚ) ^ expNat) else base * ((10 : ℚ) ^ expNat)
        let q : ℚ := if signRes.1 then -scaled else scaled
        .ok (Json.num q, cs4)

mutual

/-- A JSON value at the head of the input (leading whitespace allowed).
The fuel only bounds the recursion; `JSON_parse` supplies enough of it
that it never runs out (every recursive step consumes input). -/
def parseVal : Nat → List Char → Except String (Json × List Char)
  | 0, _ => .error "JSON input too large"
  | fuel + 1, cs =>
    match skipWs cs with
    | [] => .error "Unexpected end of JSON input"
    | c :: rest =>
      if c = quoteC then
        match parseStringChars rest with
        | .ok (chars, rest2) => .ok (.str (String.mk chars), rest2)
        | .error e => .error e
      else if c = lbraceC then parseObjStart fuel rest
      else if c = '[' then parseArrStart fuel rest
      else if c = 'n' then
        match rest with
        | 'u' :: 'l' :: 'l' :: r => .ok (.null, r)
        | _ => .error ("Unexpected token " ++ String.mk [c] ++ " in JSON")
      else if c = 't' then
        match rest with
        | 'r' :: 'u' :: 'e' :: r => .ok (.bool true, r)
        | _ => .error ("Unexpected token " ++ String.mk [c] ++ " in JSON")
      else if c = 'f' then
        match rest with
        | 'a' :: 'l' :: 's' :: 'e' :: r => .ok (.bool false, r)
        | _ => .error ("Unexpected token " ++ String.mk [c] ++ " in JSON")
      else if c = '-' ∨ c.isDigit then parseNumber (c :: rest)
      else .error ("Unexpected token " ++ String.mk [c] ++ " in JSON")

/-- Object body right after the opening brace: empty object or first member. -/
def parseObjStart : Nat → List Char → Except String (Json × List Char)
  | 0, _ => .error "JSON input too large"
  | fuel + 1, cs =>
    match skipWs cs with
    | [] => .error "Unexpected end of JSON input"
    | c :: rest =>
      if c = rbraceC then .ok (.obj [], rest)
      else parseObjMember fuel (c :: rest) []

/-- One `"key": value` member, then the rest of the object. -/
def parseObjMember : Nat → List Char → List (String × Json) → Except String (Json × List Char)
  | 0, _, _ => .error "JSON input too large"
  | fuel + 1, cs, acc =>
    match skipWs cs with
    | [] => .error "Unexpected end of JSON input"
    | c :: rest =>
      if c = quoteC then
        match parseStringChars rest with
        | .error e => .error e
        | .ok (keyChars, rest1) =>
          match skipWs rest1 with
          | ':' :: rest2 =>
            match parseVal fuel rest2 with
            | .error e => .error e
            | .ok (v, rest3) => parseObjRest fuel rest3 (acc ++ [(String.mk keyChars, v)])
          | _ => .error "Expected colon in JSON object"
      else .error ("Unexpected token " ++ String.mk [c] ++ " in JSON")

/-- After a member: a comma and another member, or the closing brace. -/
def parseObjRest : Nat → List Char → List (String × Json) → Except String (Json × List Char)
  | 0, _, _ => .error "JSON input too large"
  | fuel + 1, cs, acc =>
    match skipWs cs with
    | [] => .error "Unexpected end of JSON input"
    | c :: rest =>
      if c = rbraceC then .ok (.obj acc, rest)
      else if c = ',' then parseObjMember fuel rest acc
      else .error ("Unexpected token " ++ String.mk [c] ++ " in JSON")

/-- Array body right after the opening bracket: empty array or first element. -/
def parseArrStart : Nat → List Char → Except String (Json × List Char)
  | 0, _ => .error "JSON input too large"
  | fuel + 1, cs =>
    match skipWs cs with
    | [] => .error "Unexpected end of JSON input"
    | c :: rest =>
      if c = ']' then .ok (.arr [], rest)
      else
        match parseVal fuel (c :: rest) with
        | .error e => .error e
        | .ok (v, rest1) => parseArrRest fuel rest1 [v]

/-- After an element: a comma and another element, or the closing bracket. -/
def parseArrRest : Nat → List Char → List Json → Except String (Json × List Char)
  | 0, _, _ => .error "JSON input too large"
  | fuel + 1, cs, acc =>
    match skipWs cs with
    | [] => .error "Unexpected end of JSON input"
    | c :: rest =>
      if c = ']' then .ok (.arr acc, rest)
      else if c = ',' then
        match parseVal fuel rest with
        | .error e => .error e
        | .ok (v, rest1) => parseArrRest fuel rest1 (acc ++ [v])
      else .error ("Unexpected token " ++ String.mk [c] ++ " in JSON")

end

/-- Model of the host runtime's `JSON.parse`: one JSON value, possibly
surrounded by whitespace, covering the whole input.  Duplicate object
keys are all retained, in order; lookups below take the last binding,
matching the later-assignment-wins behaviour of `JSON.parse`. -/
def JSON_parse (s : String) : Except String Json :=
  let cs := s.toList
  match parseVal (2 * cs.length + 8) cs with
  | .error e => .error e
  | .ok (v, rest) =>
    if skipWs rest = [] then .ok v
    else .error "Unexpected non-whitespace character after JSON"

/-! The JSON-recovery fallback of the `/extract` handler -/

/-- Model of `String.prototype.indexOf` for a single character:
index of the first occurrence, if any (`-1` in JS becomes `none`). -/
def firstIndexFrom (c : Char) : List Char → Nat → Option Nat
  | [], _ => none
  | x :: xs, i => if x = c then some i else firstIndexFrom c xs (i + 1)

def jsIndexOf (s : String) (c : Char) : Option Nat :=
  firstIndexFrom c s.toList 0

/-- Model of `String.prototype.lastIndexOf` for a single character. -/
def lastIndexAux (c : Char) : List Char → Nat → Option Nat → Option Nat
  | [], _, acc => acc
  | x :: xs, i, acc => lastIndexAux c xs (i + 1) (if x = c then some i else acc)

def jsLastIndexOf (s : String) (c : Char) : Option Nat :=
  lastIndexAux c s.toList 0 none

/-- Model of `String.prototype.slice` with both bounds given. -/
def jsSlice (s : String) (a b : Nat) : String :=
  String.mk ((s.toList.drop a).take (b - a))

/-- The per-batch response handling of the `/extract` handler: parse the
model's text as JSON; on failure, locate the first `\x7b` and the last
`\x7d` and, when `start ≠ -1`, `end ≠ -1` and `end > start`, parse the
inclusive substring between them (an error of that second parse
propagates as such); otherwise raise `Model did not return valid JSON.`. -/
def parseModelContent (content : String) : Except String Json :=
  match JSON_parse content with
  | .ok v => .ok v
  | .error _ =>
    match jsIndexOf content lbraceC, jsLastIndexOf content rbraceC with
    | some s, some e =>
      if s < e then JSON_parse (jsSlice content s (e + 1))
      else .error "Model did not return valid JSON."
    | some _, none => .error "Model did not return valid JSON."
    | none, _ => .error "Model did not return valid JSON."

/-! The zod schema `ExtractedDataSchema` -/

/-- One entry of the `lineItems` array after validation.  Each field is
`z.string().optional()`: `none` means the key was absent. -/
structure LineItem where
  description : Option String
  quantity : Option String
  unitPrice : Option String
  amount : Option String
deriving DecidableEq

/-- The `meta` object after validation (`pagesProcessed` is
`z.number().optional()`). -/
structure MetaInfo where
  pagesProcessed : Option ℚ
deriving DecidableEq

/-- A validated candidate record, the output of
`ExtractedDataSchema.partial().parse` on one batch's JSON.  Every field
is optional in the schema; `none` means the key was absent from the
model's object.  `null` values are rejected by the schema (the fields
are `.optional()` but not `.nullable()`), so a present field is never
null here. -/
structure Candidate where
  documentType : Option String
  invoiceNumber : Option String
  date : Option String
  vendor : Option String
  buyer : Option String
  total : Option String
  currency : Option String
  lineItems : Option (List LineItem)
  meta : Option MetaInfo
deriving DecidableEq

/-- Property access on a parsed JSON object: the last binding of the key
wins, matching the overwrite behaviour of `JSON.parse` on duplicate
keys. -/
def lookupLast (kvs : List (String × Json)) (k : String) : Option Json :=
  match kvs with
  | [] => none
  | (k2, v) :: rest =>
    match lookupLast rest k with
    | some r => some r
    | none => if k2 = k then some v else none

/-- The `typeof`-style name zod uses in its messages. -/
def jsonTypeName : Json → String
  | .null => "null"
  | .bool _ => "boolean"
  | .num _ => "number"
  | .str _ => "string"
  | .arr _ => "array"
  | .obj _ => "object"

/-- `z.string().optional()` applied to a looked-up key: absent is fine,
a string is fine, anything else (including `null`) is an issue. -/
def zodOptionalString (v : Option Json) : Except String (Option String) :=
  match v with
  | none => .ok none
  | some (.str s) => .ok (some s)
  | some other => .error ("Expected string, received " ++ jsonTypeName other)

/-- The element schema of `lineItems` (unknown keys stripped). -/
def zodLineItem (j : Json) : Except String LineItem :=
  match j with
  | .obj kvs => do
    let description ← zodOptionalString (lookupLast kvs "description")
    let quantity ← zodOptionalString (lookupLast kvs "quantity")
    let unitPrice ← zodOptionalString (lookupLast kvs "unitPrice")
    let amount ← zodOptionalString (lookupLast kvs "amount")
    pure ⟨description, quantity, unitPrice, amount⟩
  | other => .error ("Expected object, received " ++ jsonTypeName other)

/-- `z.array(...).optional()` for `lineItems`. -/
def zodOptionalLineItems (v : Option Json) : Except String (Option (List LineItem)) :=
  match v with
  | none => .ok none
  | some (.arr es) => do
    let items ← es.mapM zodLineItem
    pure (some items)
  | some other => .error ("Expected array, received " ++ jsonTypeName other)

/-- `z.object({ pagesProcessed: z.number().optional() }).optional()`. -/
def zodOptionalMeta (v : Option Json) : Except String (Option MetaInfo) :=
  match v with
  | none => .ok none
  | some (.obj kvs) =>
    match lookupLast kvs "pagesProcessed" with
    | none => .ok (some ⟨none⟩)
    | some (.num q) => .ok (some ⟨some q⟩)
    | some other => .error ("Expected number, received " ++ jsonTypeName other)
  | some other => .error ("Expected object, received " ++ jsonTypeName other)

/-- `ExtractedDataSchema.parse`: the input must be an object; each
declared key is validated by its field schema; keys not declared in the
schema are stripped (zod's default object mode), so they cannot appear
in the output `Candidate`. -/
def ExtractedDataSchema_parse (j : Json) : Except String Candidate :=
  match j with
  | .obj kvs => do
    let documentType ← zodOptionalString (lookupLast kvs "documentType")
    let invoiceNumber ← zodOptionalString (lookupLast kvs "invoiceNumber")
    let date ← zodOptionalString (lookupLast kvs "date")
    let vendor ← zodOptionalString (lookupLast kvs "vendor")
    let buyer ← zodOptionalString (lookupLast kvs "buyer")
    let total ← zodOptionalString (lookupLast kvs "total")
    let currency ← zodOptionalString (lookupLast kvs "currency")
    let lineItems ← zodOptionalLineItems (lookupLast kvs "lineItems")
    let meta ← zodOptionalMeta (lookupLast kvs "meta")
    pure ⟨documentType, invoiceNumber, date, vendor, buyer, total, currency, lineItems, meta⟩
  | other => .error ("Expected object, received " ++ jsonTypeName other)

/-- `ExtractedDataSchema.partial().parse`: `.partial()` re-wraps each
field schema in `.optional()`, but every field of `ExtractedDataSchema`
is already optional, so the accepted inputs and the produced values are
those of `ExtractedDataSchema.parse`. -/
def ExtractedDataSchema_PartialParse (j : Json) : Except String Candidate :=
  ExtractedDataSchema_parse j

/-! The merged record and the merge step -/

/-- The accumulating record of one request.  The seven scalar fields
hold JS `null` (here `none`) until a batch supplies a value;
`meta.pagesProcessed` is the inlined single-field `meta` object. -/
structure MergedRec where
  documentType : Option String
  invoiceNumber : Option String
  date : Option String
  vendor : Option String
  buyer : Option String
  total : Option String
  currency : Option String
  lineItems : List LineItem
  pagesProcessed : ℚ
deriving DecidableEq

/-- The initial merged record: every scalar `null`, no line items, zero
page counter. -/
def initialMerged : MergedRec :=
  { documentType := none
    invoiceNumber := none
    date := none
    vendor := none
    buyer := none
    total := none
    currency := none
    lineItems := []
    pagesProcessed := 0 }

/-- One scalar field of the merge:
`if (merged[key] == null && result[key] != null) merged[key] = result[key]`. -/
def mergeScalarVals (mergedVal resultVal : Option String) : Option String :=
  if mergedVal.isNone && resultVal.isSome then resultVal else mergedVal

/-- One iteration of the merge loop: first non-null wins on the seven
scalar fields, `lineItems` are appended when the candidate carries an
array, and the page counter grows by the size of the batch (not by the
candidate's self-reported `meta.pagesProcessed`, which is ignored). -/
def mergeStep (merged : MergedRec) (result : Candidate) (batchLen : Nat) : MergedRec :=
  { documentType := mergeScalarVals merged.documentType result.documentType
    invoiceNumber := mergeScalarVals merged.invoiceNumber result.invoiceNumber
    date := mergeScalarVals merged.date result.date
    vendor := mergeScalarVals merged.vendor result.vendor
    buyer := mergeScalarVals merged.buyer result.buyer
    total := mergeScalarVals merged.total result.total
    currency := mergeScalarVals merged.currency result.currency
    lineItems :=
      match result.lineItems with
      | some items => merged.lineItems ++ items
      | none => merged.lineItems
    pagesProcessed := merged.pagesProcessed + (batchLen : ℚ) }

/-- The seven scalar keys of the merge loop. -/
inductive ScalarField where
  | documentType | invoiceNumber | date | vendor | buyer | total | currency
deriving DecidableEq

def MergedRec.getScalar (m : MergedRec) : ScalarField → Option String
  | .documentType => m.documentType
  | .invoiceNumber => m.invoiceNumber
  | .date => m.date
  | .vendor => m.vendor
  | .buyer => m.buyer
  | .total => m.total
  | .currency => m.currency

def Candidate.getScalar (c : Candidate) : ScalarField → Option String
  | .documentType => c.documentType
  | .invoiceNumber => c.invoiceNumber
  | .date => c.date
  | .vendor => c.vendor
  | .buyer => c.buyer
  | .total => c.total
  | .currency => c.currency

/-- Serialization of a validated line item back to a JS object: absent
fields stay absent. -/
def LineItem.toJson (li : LineItem) : Json :=
  .obj ((li.description.map fun s => ("description", Json.str s)).toList
    ++ (li.quantity.map fun s => ("quantity", Json.str s)).toList
    ++ (li.unitPrice.map fun s => ("unitPrice", Json.str s)).toList
    ++ (li.amount.map fun s => ("amount", Json.str s)).toList)

/-- The merged record as the JS object handed to the final
`ExtractedDataSchema.parse`: unset scalar fields are `null`, `lineItems`
is always an array, `meta.pagesProcessed` is always a number. -/
def MergedRec.toJson (m : MergedRec) : Json :=
  .obj
    [("documentType", (m.documentType.map Json.str).getD Json.null),
     ("invoiceNumber", (m.invoiceNumber.map Json.str).getD Json.null),
     ("date", (m.date.map Json.str).getD Json.null),
     ("vendor", (m.vendor.map Json.str).getD Json.null),
     ("buyer", (m.buyer.map Json.str).getD Json.null),
     ("total", (m.total.map Json.str).getD Json.null),
     ("currency", (m.currency.map Json.str).getD Json.null),
     ("lineItems", Json.arr (m.lineItems.map LineItem.toJson)),
     ("meta", Json.obj [("pagesProcessed", Json.num m.pagesProcessed)])]

/-! The batch planner -/

/-- `const BATCH_SIZE = 6`. -/
def BATCH_SIZE : Nat := 6

/-- The batching loop:
`for (let i = 0; i < pages.length; i += BATCH_SIZE) batches.push(pages.slice(i, i + BATCH_SIZE))`. -/
def batchLoopGo (pages : List String) (i : Nat) : List (List String) :=
  if h : i < pages.length then
    (pages.drop i).take BATCH_SIZE :: batchLoopGo pages (i + BATCH_SIZE)
  else []
termination_by pages.length - i
decreasing_by
  simp only [BATCH_SIZE]
  omega

def makeBatches (pages : List String) : List (List String) :=
  batchLoopGo pages 0

/-! The request pipeline -/

/-- JS whitespace as stripped by `String.prototype.trim` (space, tab,
line feed, vertical tab, form feed, carriage return, no-break space,
byte order mark; the remaining Unicode space separators are omitted —
no claim depends on them). -/
def isJsWhitespace (c : Char) : Bool :=
  c = ' ' ∨ c = Char.ofNat 9 ∨ c = Char.ofNat 10 ∨ c = Char.ofNat 11 ∨
    c = Char.ofNat 12 ∨ c = Char.ofNat 13 ∨ c = Char.ofNat 160 ∨ c = Char.ofNat 65279

/-- Model of `content.trim()` in `callOllamaVision` (the `|| ''` after
it is the identity on an already-trimmed string). -/
def jsTrim (s : String) : String :=
  String.mk (((s.toList.dropWhile isJsWhitespace).reverse.dropWhile isJsWhitespace).reverse)

/-- The merge loop of the `/extract` handler, from the first batch
onward: for each batch, the model's raw answer (`responses idx`,
trimmed as `callOllamaVision` does) is parsed with the recovery
fallback, validated with the batch schema, and folded into the merged
record; any failure aborts the remaining batches. -/
def runBatches (responses : Nat → String) :
    List (List String) → Nat → MergedRec → Except String MergedRec
  | [], _, merged => .ok merged
  | batch :: rest, idx, merged =>
    match parseModelContent (jsTrim (responses idx)) with
    | .error e => .error e
    | .ok parsed =>
      match ExtractedDataSchema_PartialParse parsed with
      | .error e => .error e
      | .ok result => runBatches responses rest (idx + 1) (mergeStep merged result batch.length)

/-- The parse-and-validate part of the loop alone: the validated
candidate of each batch paired with the batch's size, or the first
error. -/
def candidateList (responses : Nat → String) :
    List (List String) → Nat → Except String (List (Candidate × Nat))
  | [], _ => .ok []
  | batch :: rest, idx =>
    match parseModelContent (jsTrim (responses idx)) with
    | .error e => .error e
    | .ok parsed =>
      match ExtractedDataSchema_PartialParse parsed with
      | .error e => .error e
      | .ok result =>
        match candidateList responses rest (idx + 1) with
        | .error e => .error e
        | .ok cs => .ok ((result, batch.length) :: cs)

/-- The merge policy as a pure left fold over validated candidates with
their batch sizes. -/
def mergeFold (m : MergedRec) (cands : List (Candidate × Nat)) : MergedRec :=
  cands.foldl (fun acc c => mergeStep acc c.1 c.2) m

/-- The two observable outcomes of `/extract` once a PDF has been
rendered: `res.json({ ok: true, pages, data })` on success, or the
catch branch `res.status(500).json({ ok: false, error })`. -/
inductive HttpResponse where
  | success (pages : Nat) (data : Candidate)
  | serverError (error : String)
deriving DecidableEq

/-- The body of the `try` block of the `/extract` handler, after the PDF
has been rendered to `pages`: fail on zero pages, plan the batches, run
the merge loop, validate the merged record against the full schema, and
build the success payload. -/
def extractCore (pages : List String) (responses : Nat → String) : Except String HttpResponse :=
  if pages.length = 0 then .error "Could not render any pages from PDF."
  else
    match runBatches responses (makeBatches pages) 0 initialMerged with
    | .error e => .error e
    | .ok merged =>
      match ExtractedDataSchema_parse (MergedRec.toJson merged) with
      | .error e => .error e
      | .ok final => .ok (.success pages.length final)

/-- The `/extract` handler from the point where pages are rendered: the
`try`/`catch` turns any thrown error into the 500 response. -/
def extractHandler (pages : List String) (responses : Nat → String) : HttpResponse :=
  match extractCore pages responses with
  | .ok r => r
  | .error e => .serverError e

/-! Helper lemmas: batch planner -/

theorem batchLoopGo_flatten (pages : List String) (i : Nat) :
    (batchLoopGo pages i).flatten = pages.drop i := by
  rw [batchLoopGo]
  split
  · rename_i h
    rw [List.flatten_cons, batchLoopGo_flatten pages (i + BATCH_SIZE)]
    rw [← List.drop_drop, List.take_append_drop]
  · rename_i h
    rw [List.drop_eq_nil_of_le (by omega)]
    rfl
termination_by pages.length - i
decreasing_by
  simp only [BATCH_SIZE]
  omega

theorem batchLoopGo_length (pages : List String) (i : Nat) :
    (batchLoopGo pages i).length = (pages.length - i + 5) / 6 := by
  rw [batchLoopGo]
  split
  · rename_i h
    rw [List.length_cons, batchLoopGo_length pages (i + BATCH_SIZE)]
    simp only [BATCH_SIZE]
    omega
  · rename_i h
    simp only [List.length_nil]
    omega
termination_by pages.length - i
decreasing_by
  simp only [BATCH_SIZE]
  omega

theorem batchLoopGo_mem (pages : List String) (i : Nat) (b : List String)
    (hb : b ∈ batchLoopGo pages i) : b.length ≤ 6 ∧ b ≠ [] := by
  rw [batchLoopGo] at hb
  split at hb
  · rename_i h
    rcases List.mem_cons.mp hb with rfl | hb2
    · constructor
      · calc ((pages.drop i).take BATCH_SIZE).length ≤ BATCH_SIZE := by
              rw [List.length_take]; omega
          _ ≤ 6 := by simp [BATCH_SIZE]
      · intro hnil
        rcases List.take_eq_nil_iff.mp hnil with h6 | hdrop
        · simp [BATCH_SIZE] at h6
        · have := List.drop_eq_nil_iff.mp hdrop
          omega
    · exact batchLoopGo_mem pages (i + BATCH_SIZE) b hb2
  · cases hb
termination_by pages.length - i
decreasing_by
  simp only [BATCH_SIZE]
  omega

theorem makeBatches_flatten (pages : List String) : (makeBatches pages).flatten = pages := by
  rw [makeBatches, batchLoopGo_flatten, List.drop_zero]

theorem makeBatches_sum_lengths (pages : List String) :
    ((makeBatches pages).map List.length).sum = pages.length := by
  rw [← List.length_flatten, makeBatches_flatten]

/-! Helper lemmas: the merge step and the fold -/

theorem mergeScalarVals_some (v : String) (r : Option String) :
    mergeScalarVals (some v) r = some v := rfl

theorem mergeScalarVals_none (r : Option String) : mergeScalarVals none r = r := by
  cases r <;> rfl

theorem mergeStep_getScalar (m : MergedRec) (c : Candidate) (n : Nat) (f : ScalarField) :
    (mergeStep m c n).getScalar f = mergeScalarVals (m.getScalar f) (c.getScalar f) := by
  cases f <;> rfl

theorem mergeStep_lineItems (m : MergedRec) (c : Candidate) (n : Nat) :
    (mergeStep m c n).lineItems = m.lineItems ++ c.lineItems.getD [] := by
  cases h : c.lineItems <;> simp [mergeStep, h]

theorem mergeStep_pagesProcessed (m : MergedRec) (c : Candidate) (n : Nat) :
    (mergeStep m c n).pagesProcessed = m.pagesProcessed + (n : ℚ) := rfl

theorem mergeFold_cons (m : MergedRec) (c : Candidate × Nat) (cs : List (Candidate × Nat)) :
    mergeFold m (c :: cs) = mergeFold (mergeStep m c.1 c.2) cs := rfl

theorem mergeFold_append (m : MergedRec) (l1 l2 : List (Candidate × Nat)) :
    mergeFold m (l1 ++ l2) = mergeFold (mergeFold m l1) l2 :=
  List.foldl_append _ _ _ _

theorem mergeFold_getScalar_some (f : ScalarField) (cands : List (Candidate × Nat))
    (m : MergedRec) (v : String) (h : m.getScalar f = some v) :
    (mergeFold m cands).getScalar f = some v := by
  induction cands generalizing m with
  | nil => exact h
  | cons c cs ih =>
    rw [mergeFold_cons]
    exact ih _ (by rw [mergeStep_getScalar, h, mergeScalarVals_some])

theorem mergeFold_getScalar_none (f : ScalarField) (cands : List (Candidate × Nat))
    (m : MergedRec) (h : m.getScalar f = none) :
    (mergeFold m cands).getScalar f = (cands.map fun c => c.1.getScalar f).findSome? id := by
  induction cands generalizing m with
  | nil => exact h
  | cons c cs ih =>
    rw [mergeFold_cons, List.map_cons, List.findSome?_cons]
    cases hc : c.1.getScalar f with
    | none =>
      simp only [id]
      exact ih _ (by rw [mergeStep_getScalar, h, hc, mergeScalarVals_none])
    | some w =>
      simp only [id]
      exact mergeFold_getScalar_some f cs _ w
        (by rw [mergeStep_getScalar, h, hc, mergeScalarVals_none])

theorem mergeFold_lineItems (cands : List (Candidate × Nat)) (m : MergedRec) :
    (mergeFold m cands).lineItems
      = m.lineItems ++ (cands.map fun c => c.1.lineItems.getD []).flatten := by
  induction cands generalizing m with
  | nil => simp [mergeFold]
  | cons c cs ih =>
    rw [mergeFold_cons, ih, List.map_cons, List.flatten_cons, mergeStep_lineItems,
      List.append_assoc]

theorem mergeFold_pagesProcessed (cands : List (Candidate × Nat)) (m : MergedRec) :
    (mergeFold m cands).pagesProcessed
      = m.pagesProcessed + ((cands.map fun c => (c.2 : ℚ)).sum) := by
  induction cands generalizing m with
  | nil => simp [mergeFold]
  | cons c cs ih =>
    rw [mergeFold_cons, ih, List.map_cons, List.sum_cons, mergeStep_pagesProcessed, add_assoc]

theorem initialMerged_getScalar (f : ScalarField) : initialMerged.getScalar f = none := by
  cases f <;> rfl

/-! Helper lemmas: the loop as a fold -/

theorem runBatches_eq_candidateList (responses : Nat → String) (bs : List (List String))
    (idx : Nat) (m : MergedRec) :
    runBatches responses bs idx m = (candidateList responses bs idx).map (fun cs => mergeFold m cs) := by
  induction bs generalizing idx m with
  | nil => rfl
  | cons b rest ih =>
    rw [runBatches, candidateList]
    split
    · rfl
    · split
      · rfl
      · rw [ih]
        split <;> rename_i hc <;> rw [hc] <;> rfl

theorem candidateList_sizes (responses : Nat → String) (bs : List (List String)) (idx : Nat)
    (cs : List (Candidate × Nat)) (h : candidateList responses bs idx = .ok cs) :
    cs.map (fun c => c.2) = bs.map List.length := by
  induction bs generalizing idx cs with
  | nil =>
    cases h
    rfl
  | cons b rest ih =>
    rw [candidateList] at h
    split at h
    · cases h
    · split at h
      · cases h
      · split at h
        · cases h
        · rename_i result cs2 hr
          cases h
          rw [List.map_cons, List.map_cons, ih (idx + 1) cs2 hr]

/-! Helper lemmas: the handler's success path -/

theorem extractCore_ok_success (pages : List String) (responses : Nat → String)
    (r : HttpResponse) (h : extractCore pages responses = .ok r) :
    ∃ final, r = .success pages.length final := by
  rw [extractCore] at h
  split at h
  · cases h
  · split at h
    · cases h
    · split at h
      · cases h
      · rename_i final hf
        cases h
        exact ⟨final, rfl⟩

theorem extractHandler_success_pages (pages : List String) (responses : Nat → String)
    (p : Nat) (d : Candidate) (h : extractHandler pages responses = .success p d) :
    p = pages.length := by
  rw [extractHandler] at h
  split at h
  · rename_i r hr
    obtain ⟨final, rfl⟩ := extractCore_ok_success pages responses r hr
    cases h
    rfl
  · cases h

/-! Helper lemma: zod object parsing only sees the declared keys -/

theorem lookupLast_middle (l1 l2 : List (String × Json)) (k : String) (v : Json)
    (key : String) (h : k ≠ key) :
    lookupLast (l1 ++ (k, v) :: l2) key = lookupLast (l1 ++ l2) key := by
  induction l1 with
  | nil =>
    rw [List.nil_append, List.nil_append, lookupLast]
    cases hr : lookupLast l2 key with
    | some r => rfl
    | none => simp [h]
  | cons a tl ih =>
    rw [List.cons_append, List.cons_append, lookupLast, ih]
    rfl

/-! The claims -/

/-- C1: in the merge loop over validated candidate records (paired with
their batch sizes), each of the seven scalar fields obeys
first-non-null-wins: a value held after processing some prefix of the
batches still stands after every longer prefix and in the final merged
record, and the final value of the field is the value of the earliest
candidate whose field is non-null (`List.findSome?` of the candidates'
values), which is `null` (`none`) when no candidate supplies one. -/
theorem scalar_first_non_null_wins (f : ScalarField) (cands : List (Candidate × Nat)) :
    (∀ k j v, k ≤ j →
        (mergeFold initialMerged (cands.take k)).getScalar f = some v →
        (mergeFold initialMerged (cands.take j)).getScalar f = some v)
    ∧ (∀ k v, (mergeFold initialMerged (cands.take k)).getScalar f = some v →
        (mergeFold initialMerged cands).getScalar f = some v)
    ∧ (mergeFold initialMerged cands).getScalar f
        = (cands.map fun c => c.1.getScalar f).findSome? id := by
  refine ⟨?_, ?_, ?_⟩
  · intro k j v hkj hv
    have h1 : (cands.take j).take k = cands.take k := by
      rw [List.take_take, Nat.min_eq_left hkj]
    have h2 := mergeFold_getScalar_some f ((cands.take j).drop k)
      (mergeFold initialMerged ((cands.take j).take k)) v (by rw [h1]; exact hv)
    rw [← mergeFold_append, List.take_append_drop] at h2
    exact h2
  · intro k v hv
    have h2 := mergeFold_getScalar_some f (cands.drop k) (mergeFold initialMerged (cands.take k)) v hv
    rw [← mergeFold_append, List.take_append_drop] at h2
    exact h2
  · exact mergeFold_getScalar_none f cands initialMerged (initialMerged_getScalar f)

/-- A candidate whose only present field is `vendor`. -/
def vendorOnly (v : String) : Candidate :=
  ⟨none, none, none, some v, none, none, none, none, none⟩

/-- C1 witness: with batch 1 reporting `vendor: "Acme"` and batch 2
reporting `vendor: "Other"`, the merged vendor is `"Acme"`. -/
theorem scalar_first_non_null_wins_witness :
    (mergeFold initialMerged
        ([(vendorOnly "Acme", 1), (vendorOnly "Other", 2)].take 2)).getScalar
      ScalarField.vendor = some "Acme" :=
  (scalar_first_non_null_wins ScalarField.vendor
    [(vendorOnly "Acme", 1), (vendorOnly "Other", 2)]).1 1 2 "Acme" (by decide) (by decide)

/-- C2: evidence for the code bug.  The schema accepts a scalar field
that is a string or absent, but `z.string().optional()` without
`.nullable()` rejects a present `null`, so a candidate object such as
`\x7b "vendor": null \x7d` — exactly what the code's own prompt tells
the model to produce for missing fields — aborts the request instead of
validating. -/
theorem per_batch_validation_rejects_null :
    ExtractedDataSchema_PartialParse (Json.obj [("vendor", Json.str "Acme")])
        = .ok ⟨none, none, none, some "Acme", none, none, none, none, none⟩
    ∧ ExtractedDataSchema_PartialParse (Json.obj [])
        = .ok ⟨none, none, none, none, none, none, none, none, none⟩
    ∧ ExtractedDataSchema_PartialParse (Json.obj [("vendor", Json.null)])
        = .error "Expected string, received null" :=
  ⟨rfl, rfl, rfl⟩

/-- C3: evidence for the code bug.  A one-page request whose model
answer is the empty object passes per-batch validation, yet the final
`ExtractedDataSchema.parse(merged)` rejects the merged record because
its unset scalar fields hold `null` and the schema's fields are
`.optional()` but not `.nullable()`; the handler therefore returns the
500 error response, never the success JSON. -/
theorem final_validation_fails_on_unset_scalars :
    parseModelContent "\x7b\x7d" = .ok (Json.obj [])
    ∧ ExtractedDataSchema_PartialParse (Json.obj [])
        = .ok ⟨none, none, none, none, none, none, none, none, none⟩
    ∧ extractHandler ["p1"] (fun _ => "\x7b\x7d")
        = .serverError "Expected string, received null" := by
  refine ⟨rfl, rfl, ?_⟩
  have hb : makeBatches ["p1"] = [["p1"]] := by
    rw [makeBatches, batchLoopGo, dif_pos (by decide), batchLoopGo, dif_neg (by decide)]
    rfl
  rw [extractHandler, extractCore, hb]
  rfl

/-- C4: for a non-empty page list and the fixed `BATCH_SIZE = 6`, the
batching loop yields `(N + 5) / 6` groups (the ceiling of `N / 6`),
whose in-order concatenation is the original page list (so every page
appears exactly once, in order), with every group of size at most 6 and
none empty. -/
theorem batch_planner_spec (pages : List String) (hne : pages ≠ []) :
    BATCH_SIZE = 6
    ∧ (makeBatches pages).length = (pages.length + 5) / 6
    ∧ (makeBatches pages).flatten = pages
    ∧ (∀ b ∈ makeBatches pages, b.length ≤ 6 ∧ b ≠ [])
    ∧ makeBatches pages ≠ [] := by
  refine ⟨rfl, ?_, makeBatches_flatten pages, ?_, ?_⟩
  · rw [makeBatches, batchLoopGo_length, Nat.sub_zero]
  · intro b hb
    exact batchLoopGo_mem pages 0 b hb
  · rw [makeBatches, batchLoopGo, dif_pos (List.length_pos.mpr hne)]
    exact List.cons_ne_nil _ _

/-- C4 witness: seven pages yield `(7 + 5) / 6 = 2` batches whose
concatenation is the original sequence. -/
theorem batch_planner_spec_witness :
    (makeBatches ["p1", "p2", "p3", "p4", "p5", "p6", "p7"]).length
      = ((["p1", "p2", "p3", "p4", "p5", "p6", "p7"] : List String).length + 5) / 6 :=
  (batch_planner_spec ["p1", "p2", "p3", "p4", "p5", "p6", "p7"] (by decide)).2.1

/-- C5 (amended): the control flow of the per-batch JSON recovery.
If direct parsing succeeds its value is used.  Otherwise, when the text
has a first `\x7b` at `s` and a last `\x7d` at `e` with `e > s`, the
result is exactly that of parsing the inclusive substring — its value on
success, and on failure the JSON parser's own error (this branch does
not raise the literal `Model did not return valid JSON.` message).  When
no such brace pair exists, the request fails with the literal
`Model did not return valid JSON.` error.  No further recovery is
attempted in any case. -/
theorem json_recovery_cases (content : String) :
    (∀ v, JSON_parse content = .ok v → parseModelContent content = .ok v)
    ∧ (∀ msg s e, JSON_parse content = .error msg →
        jsIndexOf content lbraceC = some s → jsLastIndexOf content rbraceC = some e →
        s < e → parseModelContent content = JSON_parse (jsSlice content s (e + 1)))
    ∧ (∀ msg, JSON_parse content = .error msg →
        (∀ s e, jsIndexOf content lbraceC = some s →
          jsLastIndexOf content rbraceC = some e → e ≤ s) →
        parseModelContent content = .error "Model did not return valid JSON.") := by
  refine ⟨?_, ?_, ?_⟩
  · intro v hv
    rw [parseModelContent, hv]
  · intro msg s e hm hs he hlt
    rw [parseModelContent, hm, hs, he]
    show (if s < e then JSON_parse (jsSlice content s (e + 1))
        else Except.error "Model did not return valid JSON.")
      = JSON_parse (jsSlice content s (e + 1))
    rw [if_pos hlt]
  · intro msg hm hall
    rw [parseModelContent, hm]
    cases hs : jsIndexOf content lbraceC with
    | none => rfl
    | some s =>
      cases he : jsLastIndexOf content rbraceC with
      | none => rfl
      | some e =>
        show (if s < e then JSON_parse (jsSlice content s (e + 1))
            else Except.error "Model did not return valid JSON.")
          = Except.error "Model did not return valid JSON."
        rw [if_neg (Nat.not_lt.mpr (hall s e hs he))]

/-- C5 counterexample to the claim as stated: on the text `x\x7b]\x7d`
direct parsing fails and a brace pair exists, but the extracted
substring `\x7b]\x7d` is itself invalid JSON, so the second
`JSON.parse` throws and its syntax error — not the claimed
`Model did not return valid JSON.` error — aborts the request. -/
theorem json_recovery_counterexample :
    parseModelContent "x\x7b]\x7d" = .error "Unexpected token ] in JSON"
    ∧ "Unexpected token ] in JSON" ≠ "Model did not return valid JSON." :=
  ⟨rfl, by decide⟩

/-- C5 witness: each branch of `json_recovery_cases` at a concrete text:
direct success on `null`; fallback extraction on
`ok \x7b"a":"b"\x7d end` (first brace at 3, last at 11); the literal
error on brace-free `abc`. -/
theorem json_recovery_cases_witness :
    parseModelContent "null" = .ok Json.null
    ∧ parseModelContent "ok \x7b\"a\":\"b\"\x7d end"
        = JSON_parse (jsSlice "ok \x7b\"a\":\"b\"\x7d end" 3 12)
    ∧ parseModelContent "abc" = .error "Model did not return valid JSON." :=
  ⟨(json_recovery_cases "null").1 Json.null rfl,
   (json_recovery_cases "ok \x7b\"a\":\"b\"\x7d end").2.1 "Unexpected token o in JSON" 3 11
     rfl rfl rfl (by decide),
   (json_recovery_cases "abc").2.2 "Unexpected token a in JSON" rfl
     (fun s e hs he => by
       rw [show jsIndexOf "abc" lbraceC = none from rfl] at hs
       cases hs)⟩

/-- C6: when the page renderer yields zero pages, the handler throws
`Could not render any pages from PDF.` before any batch is planned, and
the catch branch turns it into the `\x7b ok: false, error \x7d` 500
response — never the success response (the two are distinct
constructors of `HttpResponse`). -/
theorem zero_pages_is_server_error (responses : Nat → String) :
    extractHandler [] responses = .serverError "Could not render any pages from PDF." := rfl

/-- C7: after the merge loop completes, the merged record's
`meta.pagesProcessed` equals the sum of the sizes of the processed
batches, which equals the number of rendered pages — whatever
`pagesProcessed` values the model reported (the candidates are
arbitrary); and a success response always carries `pages = N`. -/
theorem page_counter_spec (pages : List String) (responses : Nat → String) :
    (∀ m, runBatches responses (makeBatches pages) 0 initialMerged = .ok m →
        m.pagesProcessed = (((makeBatches pages).map List.length).sum : ℚ)
        ∧ m.pagesProcessed = (pages.length : ℚ))
    ∧ ∀ p d, extractHandler pages responses = .success p d → p = pages.length := by
  constructor
  · intro m hm
    rw [runBatches_eq_candidateList] at hm
    cases hc : candidateList responses (makeBatches pages) 0 with
    | error e =>
      rw [hc] at hm
      cases hm
    | ok cs =>
      rw [hc] at hm
      rw [show Except.map (fun cs => mergeFold initialMerged cs) (Except.ok cs)
          = Except.ok (mergeFold initialMerged cs) from rfl] at hm
      cases hm
      have hsizes := candidateList_sizes responses (makeBatches pages) 0 cs hc
      have hsum : (cs.map fun c => (c.2 : ℚ)).sum
          = (((makeBatches pages).map List.length).sum : ℚ) := by
        rw [Nat.cast_list_sum, ← hsizes, List.map_map]
        rfl
      constructor
      · rw [mergeFold_pagesProcessed, hsum,
          show initialMerged.pagesProcessed = 0 from rfl, zero_add]
      · rw [mergeFold_pagesProcessed, hsum, makeBatches_sum_lengths,
          show initialMerged.pagesProcessed = 0 from rfl, zero_add]
  · intro p d h
    exact extractHandler_success_pages pages responses p d h

/-- A model answer that supplies every scalar field, one line item and a
(false) self-reported page count of 99. -/
def fullResponseText : String :=
  "\x7b\"documentType\":\"invoice\",\"invoiceNumber\":\"INV-1\",\"date\":\"2024-01-01\",\"vendor\":\"Acme\",\"buyer\":\"Bob\",\"total\":\"100\",\"currency\":\"USD\",\"lineItems\":[\x7b\"description\":\"widget\",\"amount\":\"100\"\x7d],\"meta\":\x7b\"pagesProcessed\":99\x7d\x7d"

/-- The merged record of a two-page, one-batch request answered by
`fullResponseText` (the loop's own result; the error branch of the
match is unreachable, as the witness below proves). -/
def mFull : MergedRec :=
  match runBatches (fun _ => fullResponseText) [["pA", "pB"]] 0 initialMerged with
  | .ok m => m
  | .error _ => initialMerged

/-- The final validated candidate of that same request. -/
def cFull : Candidate :=
  match ExtractedDataSchema_parse (MergedRec.toJson mFull) with
  | .ok c => c
  | .error _ => ⟨none, none, none, none, none, none, none, none, none⟩

set_option maxRecDepth 8000 in
/-- C7 witness: a two-page request whose model answer claims
`pagesProcessed: 99` still ends with a counter of 2 and a success
response reporting 2 pages. -/
theorem page_counter_spec_witness :
    (mFull.pagesProcessed = (((makeBatches ["pA", "pB"]).map List.length).sum : ℚ)
      ∧ mFull.pagesProcessed = ((["pA", "pB"] : List String).length : ℚ))
    ∧ (2 : Nat) = (["pA", "pB"] : List String).length := by
  have hb : makeBatches ["pA", "pB"] = [["pA", "pB"]] := by
    rw [makeBatches, batchLoopGo, dif_pos (by decide), batchLoopGo, dif_neg (by decide)]
    rfl
  refine ⟨(page_counter_spec ["pA", "pB"] (fun _ => fullResponseText)).1 mFull ?_,
    (page_counter_spec ["pA", "pB"] (fun _ => fullResponseText)).2 2 cFull ?_⟩
  · rw [hb]
    rfl
  · rw [extractHandler, extractCore, hb]
    rfl

/-- C8: the merged record's line-item sequence is the concatenation, in
batch order, of the candidates' line-item sequences (a candidate with an
absent `lineItems` key contributes nothing), so its length is the sum of
the candidates' line-item counts. -/
theorem line_items_concatenate (cands : List (Candidate × Nat)) :
    (mergeFold initialMerged cands).lineItems
      = (cands.map fun c => c.1.lineItems.getD []).flatten
    ∧ (mergeFold initialMerged cands).lineItems.length
      = (cands.map fun c => (c.1.lineItems.getD []).length).sum := by
  have h := mergeFold_lineItems cands initialMerged
  rw [show initialMerged.lineItems = [] from rfl, List.nil_append] at h
  refine ⟨h, ?_⟩
  rw [h, List.length_flatten, List.map_map]
  rfl

/-- C9: the imperative per-batch mutation of the merged record is a pure
left fold: the sequential loop (parse, validate, mutate, batch after
batch) equals validating all batches into the candidate sequence and
folding the pure merge function over it from the given record — so the
result is a deterministic function of the validated candidate sequence
(and, from `initialMerged`, of that sequence alone). -/
theorem merge_loop_is_pure_fold (responses : Nat → String) (bs : List (List String))
    (idx : Nat) (m : MergedRec) :
    runBatches responses bs idx m
      = (candidateList responses bs idx).map (fun cs => mergeFold m cs) :=
  runBatches_eq_candidateList responses bs idx m

/-- The keys declared by `ExtractedDataSchema` at the top level. -/
def schemaTopLevelKeys : List String :=
  ["documentType", "invoiceNumber", "date", "vendor", "buyer", "total", "currency",
    "lineItems", "meta"]

/-- C10: per-batch validation silently strips unknown keys: inserting a
binding for any key not declared in the schema anywhere into a candidate
object leaves the validation outcome — success or failure, and the
resulting candidate record, which has fields only for declared keys —
unchanged. -/
theorem unknown_keys_are_stripped (l1 l2 : List (String × Json)) (k : String) (v : Json)
    (hk : k ∉ schemaTopLevelKeys) :
    ExtractedDataSchema_PartialParse (Json.obj (l1 ++ (k, v) :: l2))
      = ExtractedDataSchema_PartialParse (Json.obj (l1 ++ l2)) := by
  have hne : ∀ key, key ∈ schemaTopLevelKeys → k ≠ key := fun key hkey heq => by
    rw [heq] at hk
    exact hk hkey
  simp only [ExtractedDataSchema_PartialParse, ExtractedDataSchema_parse]
  rw [lookupLast_middle l1 l2 k v "documentType" (hne _ (by decide)),
    lookupLast_middle l1 l2 k v "invoiceNumber" (hne _ (by decide)),
    lookupLast_middle l1 l2 k v "date" (hne _ (by decide)),
    lookupLast_middle l1 l2 k v "vendor" (hne _ (by decide)),
    lookupLast_middle l1 l2 k v "buyer" (hne _ (by decide)),
    lookupLast_middle l1 l2 k v "total" (hne _ (by decide)),
    lookupLast_middle l1 l2 k v "currency" (hne _ (by decide)),
    lookupLast_middle l1 l2 k v "lineItems" (hne _ (by decide)),
    lookupLast_middle l1 l2 k v "meta" (hne _ (by decide))]

/-- C10 witness: adding an `extraField` key to a conforming object does
not change the validation result. -/
theorem unknown_keys_are_stripped_witness :
    ExtractedDataSchema_PartialParse
        (Json.obj ([("vendor", Json.str "Acme")] ++ ("extraField", Json.num 1) :: []))
      = ExtractedDataSchema_PartialParse (Json.obj ([("vendor", Json.str "Acme")] ++ [])) :=
  unknown_keys_are_stripped [("vendor", Json.str "Acme")] [] "extraField" (Json.num 1)
    (by decide)
